import Mathlib

/-!
Shallow embedding of the atm_poc repository (Go), covering:
- the persistence layer `src/pkg/persistence/db.go` (DB.Auth, DB.Balance,
  Transaction.getAmount, DB.DoTransaction, the SQL queries they run, and the
  schema of `src/create_db.sql`), and
- the API layer (Session.IsValid, Session.Renew, NewSession, Server.doDeposit,
  Server.doWithdrawal).

Storage is modelled explicitly: the sqlite database state is a `LedgerState`
(the `users.balance` column as a total map from account id, plus the
`transactions` table as an append-only list of rows). Failures of individual
storage operations (BeginTx, Prepare, Exec, Commit, Rollback) are injected
through an oracle of booleans, one per call site, so that every error branch of
the Go code is reachable in the model. A Go `panic` is a distinguished outcome,
separate from a returned non-nil `error`.

Time is modelled as an integer count of nanoseconds (Go `time.Duration` units);
each session-related call is modelled as happening at a single instant `now`
(the Go code calls `time.Now()` more than once per call, nanoseconds apart; the
claims all speak of "the call time", so one instant stands for the call).
-/

namespace Atm

/-- Account is the ID of the account (db.go: `type Account int`). -/
abbrev Account := Int

/-- TransactionType determines how the funds of an account will change
(db.go: `Error`, `Deposit`, `Withdrawal`; `Error` is the default value). -/
inductive TransactionType
| Error
| Deposit
| Withdrawal
deriving DecidableEq, Repr

/-- Transaction is a financial movement for an account (db.go). The Go field
`Type` is rendered `type`. -/
structure Transaction where
  type : TransactionType
  amount : Int
deriving DecidableEq, Repr

/-- `Transaction.getAmount` (db.go lines 122-131): `+Amount` for Deposit,
`-Amount` for Withdrawal, and a Go `panic` (modelled as `none`) for the
`Error` type. -/
def Transaction.getAmount (tx : Transaction) : Option Int :=
  match tx.type with
  | .Deposit => some tx.amount
  | .Withdrawal => some (-tx.amount)
  | .Error => none

/-- One row of the `transactions` table (create_db.sql lines 7-13): an
`amount` column and a `user` column (the latter declared as a foreign key
referencing `users(id)`). The autoincrement `id` column is implicit in the
row's list position. -/
structure Entry where
  amount : Int
  user : Int
deriving DecidableEq, Repr

/-- The committed sqlite state the ledger code operates on: the
`users.balance` column keyed by account id, and the `transactions` table in
insertion order. -/
structure LedgerState where
  balance : Account → Int
  log : List Entry

/-- Pointwise update of the `users.balance` column at one id. -/
def updateBalance (f : Account → Int) (acc : Account) (v : Int) : Account → Int :=
  fun a => if a = acc then v else f a

/-- Effect of `balanceUpdateQuery` =
`UPDATE users SET balance = (SELECT balance FROM users WHERE id = ?) + ? WHERE id = ?`
executed with positional arguments `a1, a2, a3` (db.go line 133). -/
def balanceUpdate (st : LedgerState) (a1 : Account) (a2 : Int) (a3 : Account) :
    LedgerState :=
  { st with balance := updateBalance st.balance a3 (st.balance a1 + a2) }

/-- Effect of `transactionInsertQuery` =
`INSERT INTO transactions(amount, user) VALUES(?, ?)` executed with positional
arguments `a1, a2` (db.go line 135): appends a row whose `amount` column is
`a1` and whose `user` column is `a2`. -/
def transactionInsert (st : LedgerState) (a1 a2 : Int) : LedgerState :=
  { st with log := st.log ++ [⟨a1, a2⟩] }

/-- Outcome of `DB.DoTransaction`: `ok` is a returned nil error, `fail` a
returned non-nil error, `thrown` a Go panic (uncatchable fault). -/
inductive Outcome
| ok
| fail
| thrown
deriving DecidableEq, Repr

/-- Failure injection for the storage calls made by one `DB.DoTransaction`
run, one boolean per call site in db.go lines 137-183. -/
structure StorageOracle where
  beginFails : Bool
  prepareUpdateFails : Bool
  execUpdateFails : Bool
  prepareInsertFails : Bool
  execInsertFails : Bool
  commitFails : Bool
  rollbackFails : Bool
deriving DecidableEq, Repr

/-- The all-success oracle: every storage call of one `DoTransaction` run
succeeds. -/
def noFail : StorageOracle := ⟨false, false, false, false, false, false, false⟩

/-- `DB.DoTransaction` (db.go lines 137-183), step by step:
1. `BeginTx`; on error return it (`fail`).
2. `Prepare balanceUpdateQuery`; on error `panic` (`thrown`).
3. `bup.Exec(acc, tx.getAmount(), acc)`; building the arguments evaluates
   `tx.getAmount()`, which panics on the `Error` type. On Exec error the code
   does `return dbTx.Rollback()`: the caller sees Rollback's result, which is
   nil (`ok`) when the rollback itself succeeds.
4. `Prepare transactionInsertQuery`; on error `panic`.
5. `txIns.Exec(acc, tx.getAmount())` — note the argument order: the `amount`
   column receives `acc` and the `user` column receives the signed delta. On
   Exec error, `return dbTx.Rollback()` as in step 3.
6. `return dbTx.Commit()`; a failed commit leaves the database rolled back.
Uncommitted writes live in `pending`; the committed state changes only when
`Commit` succeeds. -/
def DoTransaction (o : StorageOracle) (st : LedgerState) (acc : Account)
    (tx : Transaction) : Outcome × LedgerState :=
  if o.beginFails then (.fail, st)
  else if o.prepareUpdateFails then (.thrown, st)
  else
    match tx.getAmount with
    | none => (.thrown, st)
    | some delta =>
      if o.execUpdateFails then
        (if o.rollbackFails then .fail else .ok, st)
      else
        let pending := balanceUpdate st acc delta acc
        if o.prepareInsertFails then (.thrown, st)
        else if o.execInsertFails then
          (if o.rollbackFails then .fail else .ok, st)
        else
          let pending2 := transactionInsert pending acc delta
          if o.commitFails then (.fail, st)
          else (.ok, pending2)

/-- Failure injection for one read-only query (`DB.Auth`, `DB.Balance`):
the `Prepare`, `Query` and `Scan` call sites, plus an empty rowset for
`Balance` (`!res.Next()`). -/
structure QueryOracle where
  prepareFails : Bool
  queryFails : Bool
  rowMissing : Bool
  scanFails : Bool
deriving DecidableEq, Repr

/-- The all-success query oracle. -/
def qNoFail : QueryOracle := ⟨false, false, false, false⟩

/-- Result of a read-only DB call: a value, a returned non-nil error, or a Go
panic. -/
inductive Res (α : Type)
| ok (a : α)
| err
| thrown
deriving DecidableEq, Repr

/-- `DB.Auth` (db.go lines 34-64): looks up `SELECT id FROM users WHERE
pin = ?`. A `Prepare` error panics; a `Query` error is returned; an empty
rowset (`users` maps the pin to no account) returns the "no such account"
error; a `Scan` error is returned; otherwise the account id. -/
def Auth (o : QueryOracle) (users : String → Option Account) (pin : String) :
    Res Account :=
  if o.prepareFails then .thrown
  else if o.queryFails then .err
  else
    match users pin with
    | none => .err
    | some acc => if o.scanFails then .err else .ok acc

/-- `DB.Balance` (db.go lines 69-99): `SELECT balance FROM users WHERE
id = ?`. A `Prepare` error panics; a `Query` error is returned; an empty
rowset returns the "no balance available" error; a `Scan` error is returned;
otherwise the stored balance. -/
def Balance (o : QueryOracle) (st : LedgerState) (acc : Account) : Res Int :=
  if o.prepareFails then .thrown
  else if o.queryFails then .err
  else if o.rowMissing then .err
  else if o.scanFails then .err
  else .ok (st.balance acc)

/-- One `DoTransaction` call in a history: its failure oracle, the account it
targets, and the transaction it applies. -/
structure Step where
  oracle : StorageOracle
  account : Account
  tx : Transaction

/-- Run a sequence of `DoTransaction` calls, threading the committed state. -/
def runTransactions (st : LedgerState) (steps : List Step) : LedgerState :=
  steps.foldl (fun s p => (DoTransaction p.oracle s p.account p.tx).2) st

/-- A `DoTransaction` run reaches `Commit` successfully exactly when no
storage call on its path fails and `getAmount` does not panic. -/
def commits (o : StorageOracle) (tx : Transaction) : Bool :=
  !o.beginFails && !o.prepareUpdateFails && tx.getAmount.isSome &&
  !o.execUpdateFails && !o.prepareInsertFails && !o.execInsertFails &&
  !o.commitFails

/-- The signed delta of a transaction: `+amount` for Deposit, `-amount` for
Withdrawal (0 is a placeholder for the panicking `Error` type, which never
commits). -/
def signedDelta (tx : Transaction) : Int := tx.getAmount.getD 0

/-- Every storage call on the success path of one `DoTransaction` run
succeeds (the rollback call site is irrelevant: it is only reached after an
Exec failure). -/
def noStorageFailure (o : StorageOracle) : Bool :=
  !o.beginFails && !o.prepareUpdateFails && !o.execUpdateFails &&
  !o.prepareInsertFails && !o.execInsertFails && !o.commitFails

/-- Sum of signed deltas of the steps in a history that target `acc` and
actually commit. -/
def committedDelta (acc : Account) (steps : List Step) : Int :=
  (steps.map fun p =>
    if p.account = acc ∧ commits p.oracle p.tx then signedDelta p.tx else 0).sum

/-! API layer: sessions. Durations in nanoseconds, as Go `time.Duration`. -/

/-- Go `time.Minute` in nanoseconds. -/
def minuteNs : Int := 60 * 1000000000

/-- A session (`Session` struct): an opaque identifier, the authenticated
account, and the absolute expiration instant. -/
structure Session where
  id : Nat
  account : Account
  expiration : Int
deriving DecidableEq, Repr

/-- `Session.Renew` at instant `now`: sets `Expiration` to `now` plus 10
minutes. -/
def Session.Renew (s : Session) (now : Int) : Session :=
  { s with expiration := now + 10 * minuteNs }

/-- `Session.IsValid` at instant `now`: returns false (and touches nothing)
unless `now` is strictly before the expiration; otherwise auto-renews when the
session expires in less than a minute (`now + time.Minute` is after the
expiration), and returns true. The pair is (returned boolean, session after
the call). -/
def Session.IsValid (s : Session) (now : Int) : Bool × Session :=
  if ¬ now < s.expiration then (false, s)
  else if s.expiration < now + minuteNs then (true, s.Renew now)
  else (true, s)

/-- `NewSession` at instant `now` with fresh identifier `i`: the struct is
built with the zero-value expiration and then `Renew`ed, so the session is
valid for 10 minutes after creation. -/
def NewSession (now : Int) (i : Nat) (acc : Account) : Session :=
  Session.Renew { id := i, account := acc, expiration := 0 } now

/-! API layer: the deposit/withdrawal handlers, from the decode of the request
body onward. `decoded` is the result of `json.Decoder.Decode` into the
`depAmount` variable: `none` models a decode error, in which case the Go code
logs the error and falls through with `depAmount` still at its initializer
`-1`, then calls `DoTransaction` unconditionally. -/

/-- `Server.doDeposit`, decode-and-transact portion. -/
def doDeposit (o : StorageOracle) (st : LedgerState) (acc : Account)
    (decoded : Option Int) : Outcome × LedgerState :=
  let depAmount : Int := match decoded with
    | none => -1
    | some v => v
  DoTransaction o st acc { type := .Deposit, amount := depAmount }

/-- `Server.doWithdrawal`, decode-and-transact portion. -/
def doWithdrawal (o : StorageOracle) (st : LedgerState) (acc : Account)
    (decoded : Option Int) : Outcome × LedgerState :=
  let depAmount : Int := match decoded with
    | none => -1
    | some v => v
  DoTransaction o st acc { type := .Withdrawal, amount := depAmount }

/-- A concrete ledger fixture: every account holds 50, empty transaction
table. -/
def st0 : LedgerState := { balance := fun _ => 50, log := [] }

/-! Helper lemmas. -/

/-- Characterization of the committed state after one `DoTransaction` run:
when the run commits, the balance row of the target account and the
transaction table both change as the two queries dictate; on every other path
the committed state is untouched. -/
theorem DoTransaction_snd (o : StorageOracle) (st : LedgerState) (acc : Account)
    (tx : Transaction) :
    (DoTransaction o st acc tx).2 =
      if commits o tx then
        transactionInsert (balanceUpdate st acc (signedDelta tx) acc) acc
          (signedDelta tx)
      else st := by
  obtain ⟨b1, b2, b3, b4, b5, b6, b7⟩ := o
  cases htx : tx.getAmount <;>
    cases b1 <;> cases b2 <;> cases b3 <;> cases b4 <;> cases b5 <;>
    cases b6 <;> cases b7 <;>
    simp [DoTransaction, commits, signedDelta, htx]

/-- A committing `DoTransaction` run returns a nil error. -/
theorem DoTransaction_commits_ok (o : StorageOracle) (st : LedgerState)
    (acc : Account) (tx : Transaction) (h : commits o tx = true) :
    (DoTransaction o st acc tx).1 = Outcome.ok := by
  obtain ⟨b1, b2, b3, b4, b5, b6, b7⟩ := o
  simp only [commits, Bool.and_eq_true, Bool.not_eq_true'] at h
  obtain ⟨⟨⟨⟨⟨⟨h1, h2⟩, hsome⟩, h3⟩, h4⟩, h5⟩, h6⟩ := h
  subst h1; subst h2; subst h3; subst h4; subst h5; subst h6
  obtain ⟨d, hd⟩ := Option.isSome_iff_exists.mp hsome
  simp [DoTransaction, hd]

/-- Balance of one account after one `DoTransaction` run: it moves by the
signed delta exactly when the run targets that account and commits. -/
theorem DoTransaction_balance_step (o : StorageOracle) (st : LedgerState)
    (acc a : Account) (tx : Transaction) :
    (DoTransaction o st acc tx).2.balance a =
      st.balance a + (if acc = a ∧ commits o tx then signedDelta tx else 0) := by
  rw [DoTransaction_snd]
  by_cases hc : commits o tx
  · by_cases ha : acc = a
    · subst ha
      simp [hc, transactionInsert, balanceUpdate, updateBalance]
    · have ha' : ¬ a = acc := fun hh => ha hh.symm
      simp [hc, ha, transactionInsert, balanceUpdate, updateBalance, ha']
  · simp [hc]

/-- Conservation over an arbitrary history of `DoTransaction` calls. -/
theorem runTransactions_balance (acc : Account) (steps : List Step)
    (st : LedgerState) :
    (runTransactions st steps).balance acc =
      st.balance acc + committedDelta acc steps := by
  induction steps generalizing st with
  | nil => simp [runTransactions, committedDelta]
  | cons p ps ih =>
    have hrun : runTransactions st (p :: ps) =
        runTransactions (DoTransaction p.oracle st p.account p.tx).2 ps := rfl
    rw [hrun, ih, DoTransaction_balance_step]
    simp only [committedDelta, List.map_cons, List.sum_cons]
    rw [add_assoc]

/-- The boolean verdict of `Session.IsValid` only depends on whether the call
instant is strictly before the expiration. -/
theorem IsValid_fst (s : Session) (now : Int) :
    (Session.IsValid s now).1 = decide (now < s.expiration) := by
  unfold Session.IsValid
  by_cases h : now < s.expiration <;>
    by_cases h2 : s.expiration < now + minuteNs <;>
    simp [h, h2]

/-- `Session.IsValid` on a session at or past its expiration returns false
and leaves the session untouched. -/
theorem IsValid_expired (s : Session) (now : Int) (h : s.expiration ≤ now) :
    Session.IsValid s now = (false, s) := by
  unfold Session.IsValid
  rw [if_pos (not_lt.mpr h)]

/-! Claim theorems. -/

/-- C1: if `DoTransaction` reports failure (returns a non-nil error), the
committed state — in particular the account's stored balance and the
transaction log — is exactly what it was before the call. -/
theorem DoTransaction_failure_leaves_state_unchanged
    (o : StorageOracle) (st : LedgerState) (acc : Account) (tx : Transaction)
    (h : (DoTransaction o st acc tx).1 = Outcome.fail) :
    (DoTransaction o st acc tx).2 = st := by
  by_cases hc : commits o tx = true
  · rw [DoTransaction_commits_ok o st acc tx hc] at h
    exact absurd h (by decide)
  · rw [DoTransaction_snd, if_neg hc]

/-- Witness for C1 at a concrete input: `BeginTx` fails, the call reports
failure and the fixture state is unchanged. -/
theorem DoTransaction_failure_leaves_state_unchanged_w :
    (DoTransaction ⟨true, false, false, false, false, false, false⟩ st0 1
        ⟨.Deposit, 100⟩).1 = Outcome.fail ∧
    (DoTransaction ⟨true, false, false, false, false, false, false⟩ st0 1
        ⟨.Deposit, 100⟩).2 = st0 :=
  ⟨rfl, DoTransaction_failure_leaves_state_unchanged _ _ _ _ rfl⟩

/-- C3 (failing input): when the balance-update `Exec` fails and the rollback
succeeds, `DoTransaction` executes `return dbTx.Rollback()` and so reports a
nil error — the storage failure is swallowed as success (the state is at
least unchanged). -/
theorem DoTransaction_exec_failure_reported_ok :
    (DoTransaction ⟨false, false, true, false, false, false, false⟩ st0 1
        ⟨.Deposit, 100⟩).1 = Outcome.ok ∧
    (DoTransaction ⟨false, false, false, false, true, false, false⟩ st0 1
        ⟨.Deposit, 100⟩).1 = Outcome.ok ∧
    (DoTransaction ⟨false, false, true, false, false, false, false⟩ st0 1
        ⟨.Deposit, 100⟩).2 = st0 :=
  ⟨rfl, rfl, rfl⟩

/-- C4 (failing input): a committed Deposit of 100 on account 1 appends the
row `{amount := 1, user := 100}` — the account id lands in the `amount`
column and the signed delta in the `user` column, not the other way
around. -/
theorem DoTransaction_log_entry_fields_swapped :
    (DoTransaction noFail st0 1 ⟨.Deposit, 100⟩).1 = Outcome.ok ∧
    (DoTransaction noFail st0 1 ⟨.Deposit, 100⟩).2.log =
      [{ amount := 1, user := 100 }] ∧
    ({ amount := 1, user := 100 } : Entry) ≠ { amount := 100, user := 1 } :=
  ⟨rfl, rfl, by decide⟩

/-- C6: with no storage failure, `DoTransaction` commits and stores balance
`B + a` for a Deposit of `a` and `B - a` for a Withdrawal of `a`, for every
`a` and every starting balance `B` — no non-negativity constraint is imposed
on the result. -/
theorem DoTransaction_signed_delta (o : StorageOracle) (st : LedgerState)
    (acc : Account) (a : Int) (h : noStorageFailure o = true) :
    ((DoTransaction o st acc ⟨.Deposit, a⟩).1 = Outcome.ok ∧
     (DoTransaction o st acc ⟨.Deposit, a⟩).2.balance acc =
       st.balance acc + a) ∧
    ((DoTransaction o st acc ⟨.Withdrawal, a⟩).1 = Outcome.ok ∧
     (DoTransaction o st acc ⟨.Withdrawal, a⟩).2.balance acc =
       st.balance acc - a) := by
  obtain ⟨b1, b2, b3, b4, b5, b6, b7⟩ := o
  simp only [noStorageFailure, Bool.and_eq_true, Bool.not_eq_true'] at h
  obtain ⟨⟨⟨⟨⟨h1, h2⟩, h3⟩, h4⟩, h5⟩, h6⟩ := h
  subst h1; subst h2; subst h3; subst h4; subst h5; subst h6
  cases b7 <;>
    refine ⟨⟨rfl, ?_⟩, ⟨rfl, ?_⟩⟩ <;>
    simp [DoTransaction, Transaction.getAmount, transactionInsert,
      balanceUpdate, updateBalance, sub_eq_add_neg]

/-- Witness for C6 at a concrete input: balance 50, Deposit 100 gives 150,
Withdrawal 100 gives −50 (committed even though negative). -/
theorem DoTransaction_signed_delta_w :
    noStorageFailure noFail = true ∧
    ((DoTransaction noFail st0 1 ⟨.Deposit, 100⟩).1 = Outcome.ok ∧
     (DoTransaction noFail st0 1 ⟨.Deposit, 100⟩).2.balance 1 =
       st0.balance 1 + 100) ∧
    ((DoTransaction noFail st0 1 ⟨.Withdrawal, 100⟩).1 = Outcome.ok ∧
     (DoTransaction noFail st0 1 ⟨.Withdrawal, 100⟩).2.balance 1 =
       st0.balance 1 - 100) :=
  ⟨rfl, (DoTransaction_signed_delta noFail st0 1 100 rfl).1,
    (DoTransaction_signed_delta noFail st0 1 100 rfl).2⟩

/-- C7 (failing input): on a request body that fails to decode, the handlers
fall through with `depAmount = -1` and still reach storage: starting from
balance 50 with an empty log, the deposit handler commits balance 49 and the
withdrawal handler commits balance 51, and both append a log row. -/
theorem handlers_malformed_amount_reaches_storage :
    (doDeposit noFail st0 1 none).2.balance 1 = 49 ∧
    (doDeposit noFail st0 1 none).2.log ≠ st0.log ∧
    (doWithdrawal noFail st0 1 none).2.balance 1 = 51 ∧
    (doWithdrawal noFail st0 1 none).2.log ≠ st0.log :=
  ⟨by decide, by decide, by decide, by decide⟩

/-- C2: the balance conjunct holds in general — after any history of
`DoTransaction` calls, each account's balance is its initial balance plus the
sum of signed deltas of the committed steps targeting it — but the log
conjunct fails: after one committed Deposit of 100 on account 1 (balance
correctly 150), the rows of the transaction table whose `user` column is
account 1 are `[]`, so the committed transaction is not recorded in that
account's log (its row carries `user = 100`). -/
theorem runTransactions_conservation_and_log_divergence :
    (∀ (acc : Account) (steps : List Step) (st : LedgerState),
      (runTransactions st steps).balance acc =
        st.balance acc + committedDelta acc steps) ∧
    (runTransactions st0 [⟨noFail, 1, ⟨.Deposit, 100⟩⟩]).balance 1 = 150 ∧
    (runTransactions st0 [⟨noFail, 1, ⟨.Deposit, 100⟩⟩]).log =
      [{ amount := 1, user := 100 }] ∧
    ((runTransactions st0 [⟨noFail, 1, ⟨.Deposit, 100⟩⟩]).log.filter
      (fun e => e.user == 1)) = [] :=
  ⟨fun acc steps st => runTransactions_balance acc steps st,
    by decide, by decide, by decide⟩

/-- C8 (counterexample): a validity check on a session whose remaining TTL is
0 — strictly less than one minute — does not set the expiry to the call time
plus 10 minutes: the session is already expired, so `IsValid` returns false
and leaves the expiry untouched. -/
theorem IsValid_expired_not_renewed_cex :
    (1000 : Int) - 1000 < minuteNs ∧
    (Session.IsValid ⟨0, 1, 1000⟩ 1000).2.expiration = 1000 ∧
    (1000 : Int) ≠ 1000 + 10 * minuteNs :=
  ⟨by decide, by decide, by decide⟩

/-- C8 (amended): on a still-valid session, a validity check with remaining
TTL strictly below one minute sets the expiry to the call time plus 10
minutes, and a validity check with remaining TTL of one minute or more leaves
the session unchanged. -/
theorem IsValid_renewal_boundary (s : Session) (now : Int)
    (hvalid : now < s.expiration) :
    (s.expiration - now < minuteNs →
      Session.IsValid s now =
        (true, { s with expiration := now + 10 * minuteNs })) ∧
    (minuteNs ≤ s.expiration - now → Session.IsValid s now = (true, s)) := by
  constructor
  · intro h
    have h2 : s.expiration < now + minuteNs := by omega
    unfold Session.IsValid
    rw [if_neg (not_not_intro hvalid), if_pos h2]
    rfl
  · intro h
    have h2 : ¬ s.expiration < now + minuteNs := by omega
    unfold Session.IsValid
    rw [if_neg (not_not_intro hvalid), if_neg h2]

/-- Witness for the amended C8 at a concrete input: a session expiring 30
seconds from now is still valid, its TTL is below one minute, and the check
renews it to now + 10 minutes. -/
theorem IsValid_renewal_boundary_w :
    (0 : Int) < 30000000000 ∧ (30000000000 : Int) - 0 < minuteNs ∧
    Session.IsValid ⟨0, 1, 30000000000⟩ 0 =
      (true, { id := 0, account := 1, expiration := 0 + 10 * minuteNs }) :=
  ⟨by decide, by decide,
    (IsValid_renewal_boundary ⟨0, 1, 30000000000⟩ 0 (by decide)).1 (by decide)⟩

/-- C9: a session created at instant T expires at T + 10 minutes; the
validity check judges it valid exactly at instants strictly before T + 10
minutes and, at T + 10 minutes or later, returns false and leaves the session
unchanged; more generally the check never renews any session already at or
past its expiration. -/
theorem NewSession_ttl_validity (T t : Int) (i : Nat) (acc : Account) :
    (NewSession T i acc).expiration = T + 10 * minuteNs ∧
    ((Session.IsValid (NewSession T i acc) t).1 = true ↔ t < T + 10 * minuteNs) ∧
    (T + 10 * minuteNs ≤ t →
      Session.IsValid (NewSession T i acc) t = (false, NewSession T i acc)) ∧
    (∀ s : Session, s.expiration ≤ t → Session.IsValid s t = (false, s)) := by
  refine ⟨rfl, ?_, ?_, fun s hs => IsValid_expired s t hs⟩
  · rw [IsValid_fst]
    simp [NewSession, Session.Renew]
  · intro h
    exact IsValid_expired (NewSession T i acc) t h

/-- Witness for C9 at a concrete input: a session created at 0 is checked at
exactly +10 minutes and is rejected without being renewed. -/
theorem NewSession_ttl_validity_w :
    (0 : Int) + 10 * minuteNs ≤ 600000000000 ∧
    Session.IsValid (NewSession 0 7 1) 600000000000 = (false, NewSession 0 7 1) :=
  ⟨by decide, (NewSession_ttl_validity 0 600000000000 7 1).2.2.1 (by decide)⟩

/-- C10 (counterexample): the panic branches are reachable. A failure of the
`Prepare` call — a storage-layer failure the spec classifies as a typed
outcome — makes `DoTransaction`, `Balance` and `Auth` each throw an
uncatchable fault instead of returning an error, and `DoTransaction` on the
default (`Error`) transaction type throws via `getAmount`. -/
theorem prepare_failure_thrown_cex :
    (DoTransaction ⟨false, true, false, false, false, false, false⟩ st0 1
        ⟨.Deposit, 100⟩).1 = Outcome.thrown ∧
    Balance ⟨true, false, false, false⟩ st0 1 = Res.thrown ∧
    Auth ⟨true, false, false, false⟩ (fun _ => some 1) "4623" = Res.thrown ∧
    (DoTransaction noFail st0 1 ⟨.Error, 100⟩).1 = Outcome.thrown :=
  ⟨rfl, rfl, rfl, rfl⟩

/-- C10 (amended): as long as every `Prepare` call succeeds and the
transaction type is not the default `Error` value, `Auth`, `Balance` and
`DoTransaction` never throw — every internal failure (query, scan, exec,
begin, commit, missing row) is returned to the caller as a typed error
outcome. -/
theorem no_uncaught_fault_when_prepare_ok
    (o : StorageOracle) (q : QueryOracle) (st : LedgerState) (acc : Account)
    (tx : Transaction) (users : String → Option Account) (pin : String)
    (h1 : o.prepareUpdateFails = false) (h2 : o.prepareInsertFails = false)
    (h3 : tx.type ≠ TransactionType.Error) (h4 : q.prepareFails = false) :
    (DoTransaction o st acc tx).1 ≠ Outcome.thrown ∧
    Balance q st acc ≠ Res.thrown ∧
    Auth q users pin ≠ Res.thrown := by
  obtain ⟨b1, b2, b3, b4, b5, b6, b7⟩ := o
  obtain ⟨p1, p2, p3, p4⟩ := q
  simp only at h1 h2 h4
  subst h1; subst h2; subst h4
  have hamt : ∃ d, tx.getAmount = some d := by
    cases htx : tx.type with
    | Error => exact absurd htx h3
    | Deposit => exact ⟨tx.amount, by simp [Transaction.getAmount, htx]⟩
    | Withdrawal => exact ⟨-tx.amount, by simp [Transaction.getAmount, htx]⟩
  obtain ⟨d, hd⟩ := hamt
  refine ⟨?_, ?_, ?_⟩
  · cases b1 <;> cases b3 <;> cases b5 <;> cases b6 <;> cases b7 <;>
      simp [DoTransaction, hd]
  · cases p2 <;> cases p3 <;> cases p4 <;> simp [Balance]
  · cases hup : users pin <;> cases p2 <;> cases p4 <;> simp [Auth, hup]

/-- Witness for the amended C10 at a concrete input: with all storage calls
succeeding, none of the three operations throws. -/
theorem no_uncaught_fault_when_prepare_ok_w :
    (noFail.prepareUpdateFails = false ∧ noFail.prepareInsertFails = false ∧
     ({ type := TransactionType.Deposit, amount := 100 } : Transaction).type ≠
       TransactionType.Error ∧
     qNoFail.prepareFails = false) ∧
    ((DoTransaction noFail st0 1 ⟨.Deposit, 100⟩).1 ≠ Outcome.thrown ∧
     Balance qNoFail st0 1 ≠ Res.thrown ∧
     Auth qNoFail (fun _ => some 1) "4623" ≠ Res.thrown) :=
  ⟨⟨rfl, rfl, by decide, rfl⟩,
    no_uncaught_fault_when_prepare_ok noFail qNoFail st0 1 ⟨.Deposit, 100⟩
      (fun _ => some 1) "4623" rfl rfl (by decide) rfl⟩

end Atm
